import Mathlib

/-!
Verification of the checkpointed translation pipeline of
`translate.py` (`DraftworxTranslator`): the transform-call wrappers
`translate_text` and `generate_formula`, the per-record processor
`process_single_record`, the batch driver `process_dataframe`, and the
checkpoint writer/loader `save_progress` / `resume_from_backup`.

Modelling choices:
* Python `str` is modelled as `List Char` (`Str`); `str.strip()` as
  `pyStrip`, `str.lower()` as `pyLower`, `str(int)` as `natStr`.
* A pandas dataframe cell is a `Cell`: either a string or `NaN`.
  `pandas.read_csv` stores an empty (or NA-sentinel) CSV field as the
  float `NaN`; Python's `bool(nan)` is `True` and `str(nan)` is `"nan"`,
  which `Cell.truthy` and `Cell.pyStr` reproduce.
* The OpenAI client (`test_prompts.translate_english_value` /
  `translate_formula`) is an oracle `Client` whose two operations may
  fail; the wrappers catch the failure exactly as the `except` branches
  of `translate.py` do.  Every attempted call is recorded in a call
  list so that "number of Transform Client calls" is observable.
* Wall-clock `time.strftime` timestamps are an oracle `ts : Nat → Str`
  giving the timestamp string of the k-th `save_progress` invocation
  of a run; a constant `ts` models saves within the same second.
-/

namespace Draftworx

/-- Python `str`, modelled as a list of characters. -/
abbrev Str := List Char

/-- Embed a Lean string literal as a `Str`. -/
def lit (s : String) : Str := s.toList

/-- Model of Python's whitespace test used by `str.strip()`. -/
def wsp (c : Char) : Bool := c.isWhitespace

/-- Python `str.lstrip()`: drop leading whitespace. -/
def lstrip (s : Str) : Str := s.dropWhile wsp

/-- Python `str.rstrip()`: drop the longest all-whitespace suffix. -/
def rstrip : Str → Str
  | [] => []
  | c :: cs =>
    match rstrip cs with
    | [] => if wsp c then [] else [c]
    | r => c :: r

/-- Python `str.strip()`. -/
def pyStrip (s : Str) : Str := rstrip (lstrip s)

/-- Python `str.lower()`, character by character. -/
def pyLower (s : Str) : Str := s.map Char.toLower

/-- The apostrophe marker character (ASCII 39) that `generate_formula`
prepends to formulas. -/
def marker : Char := Char.ofNat 39

/-- The underscore character (ASCII 95) used in backup file names. -/
def underscore : Char := Char.ofNat 95

/-- Decimal digits with a fuel argument (`fuel > n` always suffices,
since the argument shrinks by a factor of ten each step). -/
def natStrAux : Nat → Nat → Str
  | 0, _ => []
  | fuel + 1, n =>
    if n < 10 then [Nat.digitChar n]
    else natStrAux fuel (n / 10) ++ [Nat.digitChar (n % 10)]

/-- Python `str(n)` for a natural number: decimal digits. -/
def natStr (n : Nat) : Str := natStrAux (n + 1) n

/-- A pandas dataframe cell: a string, or the float `NaN` that pandas
uses for a missing value. -/
inductive Cell where
  | str (v : Str)
  | nan
deriving DecidableEq, Repr, Inhabited

/-- Python `str(cell)`: the string itself, or `"nan"` for the float `NaN`. -/
def Cell.pyStr : Cell → Str
  | .str v => v
  | .nan => lit "nan"

/-- Python truthiness of the cell value: a string is truthy iff
non-empty, while `bool(float("nan"))` is `True`. -/
def Cell.truthy : Cell → Bool
  | .str v => !v.isEmpty
  | .nan => true

/-- A row of the dataframe of `translate.py`: the two source columns
`CellValue_English` / `CellFormula_English` and the two target-language
columns `CellValue_<Language>` / `CellFormula_<Language>`. -/
structure Record where
  sourceValue : Cell
  sourceFormula : Cell
  targetValue : Cell
  targetFormula : Cell
deriving DecidableEq, Repr, Inhabited

/-- The Transform Client: the two OpenAI-backed operations of
`test_prompts.py`, each of which may fail (raise). -/
structure Client where
  translateValue : Str → Str → Except Unit Str
  rewriteFormula : Str → Str → Str → Str → Except Unit Str

/-- One attempted Transform Client call, with its arguments. -/
inductive Call where
  | value (text lang : Str)
  | formula (ev tv f lang : Str)
deriving DecidableEq, Repr

/-- `DraftworxTranslator.translate_text` (translate.py:77-114): return
`""` for blank input without calling the client; on success return the
stripped translation; on failure return the original text.  The second
component records the attempted client calls. -/
def translate_text (c : Client) (lang : Str) (english_text : Str) :
    Str × List Call :=
  if english_text.isEmpty || (pyStrip english_text).isEmpty then ([], [])
  else
    match c.translateValue english_text lang with
    | .ok t => (pyStrip t, [.value english_text lang])
    | .error _ => (english_text, [.value english_text lang])

/-- `DraftworxTranslator.generate_formula` (translate.py:116-164):
return `""` for a blank formula without calling the client; on success
prepend the apostrophe marker if absent and strip; on failure fall back
to the original formula with the marker prepended. -/
def generate_formula (c : Client) (lang ev tv f : Str) : Str × List Call :=
  if f.isEmpty || (pyStrip f).isEmpty then ([], [])
  else
    match c.rewriteFormula ev tv f lang with
    | .ok out =>
        let out2 := if out.head? = some marker then out else marker :: out
        (pyStrip out2, [.formula ev tv f lang])
    | .error _ => (marker :: f, [.formula ev tv f lang])

/-- Which branch of `process_single_record` returned: the skip branch,
the normal fall-through (Python `return True`), or the `except` branch
(Python `return False`). -/
inductive Outcome where
  | skipped
  | finished
  | errored
deriving DecidableEq, Repr

/-- The boolean actually returned by `process_single_record`. -/
def Outcome.toBool : Outcome → Bool
  | .skipped => true
  | .finished => true
  | .errored => false

/-- `DraftworxTranslator.process_single_record` (translate.py:166-257),
non-debug path, acting on the single row it touches.  Skips when both
target cells are truthy or both stripped source texts are empty;
otherwise translates a non-empty value into `targetValue` and rewrites
a non-empty formula into `targetFormula`.  Returns the updated row, the
branch taken, and the attempted client calls in order. -/
def process_single_record (c : Client) (lang : Str) (r : Record) :
    Record × Outcome × List Call :=
  let english_value := pyStrip r.sourceValue.pyStr
  let english_formula := pyStrip r.sourceFormula.pyStr
  if (r.targetValue.truthy && r.targetFormula.truthy)
      || (english_value.isEmpty && english_formula.isEmpty) then
    (r, .skipped, [])
  else
    let s1 :=
      if english_value.isEmpty then (([] : Str), r, ([] : List Call))
      else
        let tc := translate_text c lang english_value
        (tc.1, { r with targetValue := Cell.str tc.1 }, tc.2)
    let s2 :=
      if english_formula.isEmpty then (s1.2.1, ([] : List Call))
      else
        let fc := generate_formula c lang english_value s1.1 english_formula
        ({ s1.2.1 with targetFormula := Cell.str fc.1 }, fc.2)
    (s2.1, .finished, s1.2.2 ++ s2.2)

/-- One serialized CSV row of a checkpoint file, as written by
`df.to_csv` in `save_progress` (translate.py:368): a `NaN` cell becomes
an empty field, a string cell is written as is. -/
structure RawRow where
  sv : Str
  sf : Str
  tv : Str
  tf : Str
deriving DecidableEq, Repr, Inhabited

/-- `df.to_csv` on one cell: `NaN` becomes the empty field. -/
def Cell.save : Cell → Str
  | .str v => v
  | .nan => []

/-- Serialize the dataframe for `save_progress` (translate.py:368). -/
def save_table (t : List Record) : List RawRow :=
  t.map fun r => ⟨r.sourceValue.save, r.sourceFormula.save,
                  r.targetValue.save, r.targetFormula.save⟩

/-- The default NA sentinels of `pandas.read_csv`: a field equal to one
of these strings is loaded as the float `NaN`. -/
def naValues : List Str :=
  [lit "", lit "#N/A", lit "#N/A N/A", lit "#NA", lit "-1.#IND",
   lit "-1.#QNAN", lit "-NaN", lit "-nan", lit "1.#IND", lit "1.#QNAN",
   lit "<NA>", lit "N/A", lit "NA", lit "NULL", lit "NaN", lit "None",
   lit "n/a", lit "nan", lit "null"]

/-- `pandas.read_csv` on one field (default `keep_default_na=True`). -/
def parseCell (s : Str) : Cell :=
  if naValues.contains s then Cell.nan else Cell.str s

/-- `DraftworxTranslator.resume_from_backup` (translate.py:406-433):
`pd.read_csv` on a checkpoint file. -/
def load_table (rows : List RawRow) : List Record :=
  rows.map fun w => ⟨parseCell w.sv, parseCell w.sf, parseCell w.tv, parseCell w.tf⟩

/-- The backup directory of `save_progress` (translate.py:347). -/
def backup_dir : Str := lit "Backup_OutputResults"

/-- The kind-dependent file-name piece of `save_progress`
(translate.py:356-362): `"final_backup_"` for a final save,
`"backup_"` for a periodic save. -/
def kindPre (fin : Bool) : Str :=
  if fin then lit "final_backup_" else lit "backup_"

/-- The checkpoint file name built by `save_progress`
(translate.py:357/362):
`{backup_dir}/{final_backup|backup}_{language}_{succeededCount}_{timestamp}.csv`. -/
def backup_filename (fin : Bool) (lang : Str) (succ : Nat) (tstamp : Str) : Str :=
  backup_dir ++ Char.ofNat 47 ::
    (kindPre fin ++ (lang ++ underscore ::
      (natStr succ ++ underscore :: (tstamp ++ lit ".csv"))))

/-- One `save_progress` invocation: the file name, the save kind, the
success count and timestamp that went into the name, the serialized
table, and the fact that `to_csv` used `encoding="utf-8-sig"` (a
byte-order marker). -/
structure SaveEvent where
  filename : Str
  final : Bool
  succ : Nat
  tstamp : Str
  file : List RawRow
  bom : Bool
deriving DecidableEq, Repr

/-- `DraftworxTranslator.save_progress` (translate.py:334-404), with
the wall-clock `time.strftime` result passed in as `tstamp`.  The
language is lowercased for the file name (translate.py:354). -/
def save_progress (lang : Str) (df : List Record) (succ : Nat)
    (fin : Bool) (tstamp : Str) : SaveEvent :=
  { filename := backup_filename fin (pyLower lang) succ tstamp
    final := fin
    succ := succ
    tstamp := tstamp
    file := save_table df
    bom := true }

/-- The driver state of `process_dataframe`: the rows already iterated
(with their final contents), the two counters, the number of
`save_progress` invocations so far (index into the timestamp oracle),
and the observable history: saves, per-record attempted client calls,
and per-record branch outcomes. -/
structure St where
  done : List Record
  processed : Nat
  succeeded : Nat
  nsaves : Nat
  saves : List SaveEvent
  calls : List (Nat × Call)
  outcomes : List Outcome
deriving DecidableEq, Repr

/-- One non-interrupted iteration of the `process_dataframe` loop body
(translate.py:296-307): process record `r`, always increment
`processed_count`, increment `successful_count` when the returned
boolean is `True`, then write a periodic checkpoint of the whole
current table every `save_interval` processed records. -/
def stepSt (c : Client) (lang : Str) (interval : Nat) (ts : Nat → Str)
    (idx : Nat) (r : Record) (rest2 : List Record) (st : St) : St :=
  let pr := process_single_record c lang r
  let st1 : St :=
    { st with
      done := st.done ++ [pr.1]
      processed := st.processed + 1
      succeeded := st.succeeded + (if pr.2.1.toBool then 1 else 0)
      calls := st.calls ++ pr.2.2.map (fun k => (idx, k))
      outcomes := st.outcomes ++ [pr.2.1] }
  if st1.processed % interval = 0 then
    { st1 with
      saves := st1.saves ++
        [save_progress lang (st1.done ++ rest2) st1.succeeded false (ts st1.nsaves)]
      nsaves := st1.nsaves + 1 }
  else st1

/-- The `for index in range(len(df))` loop of `process_dataframe`
(translate.py:289-324).  `intr = some i` means a `KeyboardInterrupt`
is observed at the start of iteration `i` (the spec's "no signal is
observed mid-record"): the handler writes a final checkpoint and
breaks.  Otherwise the iteration is `stepSt`.  Returns the final state
and the full table (including rows left unprocessed by a break). -/
def loop (c : Client) (lang : Str) (interval : Nat) (intr : Option Nat)
    (ts : Nat → Str) : Nat → List Record → St → St × List Record
  | _, [], st => (st, st.done)
  | idx, r :: rest2, st =>
    if intr = some idx then
      let full := st.done ++ r :: rest2
      let ev := save_progress lang full st.succeeded true (ts st.nsaves)
      ({ st with saves := st.saves ++ [ev], nsaves := st.nsaves + 1 }, full)
    else
      loop c lang interval intr ts (idx + 1) rest2
        (stepSt c lang interval ts idx r rest2 st)

/-- The observable result of one `process_dataframe` run. -/
structure RunResult where
  df : List Record
  processed : Nat
  succeeded : Nat
  outcomes : List Outcome
  calls : List (Nat × Call)
  saves : List SaveEvent
deriving DecidableEq, Repr

/-- The initial driver state (translate.py:284-287). -/
def initSt : St := ⟨[], 0, 0, 0, [], [], []⟩

/-- `DraftworxTranslator.process_dataframe` (translate.py:259-332):
run the loop from index 0, then write a final checkpoint iff
`processed_count > 0` (translate.py:327-329). -/
def process_dataframe (c : Client) (lang : Str) (df : List Record)
    (interval : Nat) (intr : Option Nat) (ts : Nat → Str) : RunResult :=
  let p := loop c lang interval intr ts 0 df initSt
  let st := p.1
  let st2 : St :=
    if st.processed > 0 then
      { st with
        saves := st.saves ++ [save_progress lang p.2 st.succeeded true (ts st.nsaves)]
        nsaves := st.nsaves + 1 }
    else st
  { df := p.2, processed := st2.processed, succeeded := st2.succeeded,
    outcomes := st2.outcomes, calls := st2.calls, saves := st2.saves }

/-! ### Spec-side definitions and concrete inputs used by the claims -/

/-- Completeness of a record per spec section 3, stated from the spec's
words for comparison with the code's skip test: `targetValue` present
(not the pandas missing value), and `targetFormula` present whenever
the trimmed `sourceFormula` is non-empty. -/
def specComplete (r : Record) : Bool :=
  (r.targetValue != Cell.nan) &&
    (if (pyStrip r.sourceFormula.pyStr).isEmpty then true
     else r.targetFormula != Cell.nan)

/-- The checkpoint-name pattern of spec section 6, stated from the
spec's words for comparison with the code's `backup_filename`:
`{progress|final}_{language}_{succeededCount}_{timestamp}.{ext}`. -/
def specCkptName (fin : Bool) (lang : Str) (succ : Nat) (tstamp ext : Str) : Str :=
  (if fin then lit "final" else lit "progress") ++ underscore ::
    (lang ++ underscore :: (natStr succ ++ underscore :: (tstamp ++ Char.ofNat 46 :: ext)))

/-- The default target language of `translate.py` (capitalized by
`__init__`). -/
def langAfr : Str := lit "Afrikaans"

/-- A Transform Client whose two operations always succeed, with a
fixed translation and a fixed rewritten formula. -/
def okClient : Client :=
  ⟨fun _ _ => .ok (lit "Vertaal"), fun _ _ _ _ => .ok (lit "=V")⟩

/-- A Transform Client whose two operations always fail (the OpenAI
call raises). -/
def failClient : Client := ⟨fun _ _ => .error (), fun _ _ _ _ => .error ()⟩

/-- A timestamp oracle under which every `time.strftime` call of a run
falls within the same wall-clock second. -/
def tsConst : Nat → Str := fun _ => lit "20250101_120000"

/-- A record that spec section 3 counts as complete although its
`targetFormula` cell is the empty string: empty `sourceFormula` and
non-empty `targetValue`. -/
def rValueDone : Record :=
  ⟨.str (lit "Total assets"), .str [], .str (lit "Totaal bates"), .str []⟩

/-- A record whose two target cells are both non-empty strings (the
fully processed shape produced by a fresh run). -/
def rComplete : Record :=
  ⟨.str (lit "Total assets"), .str (lit "=A"), .str (lit "Totaal bates"),
   .str (marker :: lit "=B")⟩

/-- A record not yet processed, with the empty-string target cells that
`process_dataframe` creates on a fresh table. -/
def rFresh : Record :=
  ⟨.str (lit "Net profit"), .str (lit "=X"), .str [], .str []⟩

/-- A fresh record with a source value and no formula. -/
def rValueFresh : Record := ⟨.str (lit "Total"), .str [], .str [], .str []⟩

/-- A checkpoint file holding one complete record and one incomplete
record (empty target fields). -/
def ckpt2 : List RawRow :=
  [⟨lit "Total assets", lit "=A", lit "Totaal bates", marker :: lit "=B"⟩,
   ⟨lit "Net profit", lit "=X", [], []⟩]

/-- The incomplete record of `ckpt2` as `pd.read_csv` loads it: the two
empty target fields become the float `NaN`. -/
def rec2b : Record :=
  ⟨.str (lit "Net profit"), .str (lit "=X"), Cell.nan, Cell.nan⟩

/-- The resumed run on `ckpt2`. -/
def runC2 : RunResult :=
  process_dataframe okClient langAfr (load_table ckpt2) 5 none tsConst

/-- A two-record run interrupted at index 1: the interrupt handler and
the post-loop save both write a final checkpoint within one second. -/
def runC7 : RunResult :=
  process_dataframe okClient langAfr [rFresh, rFresh] 5 (some 1) tsConst

/-- A one-record run with `save_interval = 1`: one periodic and one
final checkpoint. -/
def runC9 : RunResult :=
  process_dataframe okClient langAfr [rFresh] 1 none tsConst

/-- A two-record run, first record already processed, with a failing
client. -/
def runC4 : RunResult :=
  process_dataframe failClient langAfr [rComplete, rFresh] 5 none tsConst

/-- A cell that survives the CSV round trip: the pandas missing value,
or a string that is not an NA sentinel. -/
def cellOk : Cell → Bool
  | Cell.nan => true
  | Cell.str v => !(naValues.contains v)

/-- A record all of whose cells survive the CSV round trip. -/
def recordOk (r : Record) : Bool :=
  cellOk r.sourceValue && cellOk r.sourceFormula &&
    cellOk r.targetValue && cellOk r.targetFormula

/-- The file-name/kind/encoding contract of one save event: its name is
`backup_filename` applied to its kind, the lowercased language, its
success count and its timestamp, and the file carries the UTF-8
byte-order marker. -/
def saveOkB (lang : Str) (ev : SaveEvent) : Bool :=
  (ev.filename == backup_filename ev.final (pyLower lang) ev.succ ev.tstamp) && ev.bom

/-! ### Properties of the string model -/

theorem lstrip_cons_of_nonws {c : Char} (h : wsp c = false) (l : Str) :
    lstrip (c :: l) = c :: l := by
  simp [lstrip, List.dropWhile_cons, h]

theorem rstrip_cons_of_nonws {c : Char} (h : wsp c = false) (l : Str) :
    ∃ t, rstrip (c :: l) = c :: t := by
  cases hl : rstrip l with
  | nil => exact ⟨[], by simp [rstrip, hl, h]⟩
  | cons x xs => exact ⟨x :: xs, by simp [rstrip, hl]⟩

theorem rstrip_cons (c : Char) (cs : Str) :
    rstrip (c :: cs) = match rstrip cs with
      | [] => if wsp c then [] else [c]
      | r => c :: r := rfl

theorem rstrip_idem (l : Str) : rstrip (rstrip l) = rstrip l := by
  induction l with
  | nil => rfl
  | cons c t ih =>
    cases h : rstrip t with
    | nil =>
      cases hc : wsp c with
      | false =>
        have h1 : rstrip (c :: t) = [c] := by rw [rstrip_cons, h]; simp [hc]
        rw [h1, rstrip_cons]
        simp [rstrip, hc]
      | true =>
        have h1 : rstrip (c :: t) = [] := by rw [rstrip_cons, h]; simp [hc]
        rw [h1]
        rfl
    | cons x xs =>
      have hx : rstrip (x :: xs) = x :: xs := by rw [← h]; exact ih
      have h1 : rstrip (c :: t) = c :: x :: xs := by rw [rstrip_cons, h]
      rw [h1, rstrip_cons, hx]

theorem lstrip_shape (l : Str) :
    lstrip l = [] ∨ ∃ c t, lstrip l = c :: t ∧ wsp c = false := by
  induction l with
  | nil => exact Or.inl rfl
  | cons a t ih =>
    cases h : wsp a with
    | true => simpa [lstrip, List.dropWhile_cons, h] using ih
    | false => exact Or.inr ⟨a, t, by simp [lstrip, List.dropWhile_cons, h], h⟩

theorem pyStrip_cons_of_nonws {c : Char} (h : wsp c = false) (l : Str) :
    ∃ t, pyStrip (c :: l) = c :: t := by
  unfold pyStrip
  rw [lstrip_cons_of_nonws h]
  exact rstrip_cons_of_nonws h l

theorem pyStrip_idem (s : Str) : pyStrip (pyStrip s) = pyStrip s := by
  rcases lstrip_shape s with h | ⟨c, t, h, hc⟩
  · unfold pyStrip
    rw [h]
    rfl
  · unfold pyStrip
    rw [h]
    obtain ⟨t2, h2⟩ := rstrip_cons_of_nonws hc t
    rw [h2, lstrip_cons_of_nonws hc]
    have h3 := rstrip_idem (c :: t)
    rw [h2] at h3
    exact h3

theorem pyStrip_eq_nil_of_all_ws {s : Str} (h : ∀ c ∈ s, wsp c = true) :
    pyStrip s = [] := by
  have : lstrip s = [] := List.dropWhile_eq_nil_iff.mpr h
  unfold pyStrip
  rw [this]
  rfl

/-! ### Properties of the decimal rendering `natStr` -/

theorem digitChar_isDigit : ∀ m, m < 10 → (Nat.digitChar m).isDigit = true := by
  decide

theorem digitChar_inj :
    ∀ a, a < 10 → ∀ b, b < 10 → Nat.digitChar a = Nat.digitChar b → a = b := by
  decide

theorem natStrAux_fuel :
    ∀ f1 : Nat, ∀ n f2, n < f1 → n < f2 → natStrAux f1 n = natStrAux f2 n := by
  intro f1
  induction f1 with
  | zero =>
    intro n f2 h1 _
    omega
  | succ f ih =>
    intro n f2 h1 h2
    cases f2 with
    | zero => omega
    | succ g =>
      simp only [natStrAux]
      by_cases hn : n < 10
      · rw [if_pos hn, if_pos hn]
      · rw [if_neg hn, if_neg hn, ih (n / 10) g (by omega) (by omega)]

theorem natStrAux_succ (fuel n : Nat) :
    natStrAux (fuel + 1) n = if n < 10 then [Nat.digitChar n]
      else natStrAux fuel (n / 10) ++ [Nat.digitChar (n % 10)] := rfl

theorem natStr_eq (n : Nat) :
    natStr n = if n < 10 then [Nat.digitChar n]
               else natStr (n / 10) ++ [Nat.digitChar (n % 10)] := by
  by_cases hn : n < 10
  · rw [if_pos hn]
    show natStrAux (n + 1) n = _
    rw [natStrAux_succ, if_pos hn]
  · rw [if_neg hn]
    show natStrAux (n + 1) n = natStr (n / 10) ++ [Nat.digitChar (n % 10)]
    rw [natStrAux_succ, if_neg hn,
      natStrAux_fuel n (n / 10) (n / 10 + 1) (by omega) (by omega)]
    rfl

theorem natStr_ne_nil (n : Nat) : natStr n ≠ [] := by
  rw [natStr_eq]
  split
  · simp
  · simp

theorem natStr_digits : ∀ n : Nat, ∀ c ∈ natStr n, c.isDigit = true := by
  intro n
  induction n using Nat.strong_induction_on with
  | _ n ih =>
    intro c hc
    rw [natStr_eq] at hc
    split at hc
    · next h =>
      have : c = Nat.digitChar n := by simpa using hc
      rw [this]
      exact digitChar_isDigit n h
    · next h =>
      rcases List.mem_append.mp hc with h2 | h2
      · exact ih (n / 10) (Nat.div_lt_self (by omega) (by omega)) c h2
      · have : c = Nat.digitChar (n % 10) := by simpa using h2
        rw [this]
        exact digitChar_isDigit (n % 10) (Nat.mod_lt n (by omega))

theorem natStr_inj : ∀ m n : Nat, natStr m = natStr n → m = n := by
  intro m
  induction m using Nat.strong_induction_on with
  | _ m ih =>
    intro n h
    have hsmall : ∀ k, k < 10 → natStr k = [Nat.digitChar k] := by
      intro k hk
      rw [natStr_eq, if_pos hk]
    have hbig : ∀ k, ¬k < 10 →
        natStr k = natStr (k / 10) ++ [Nat.digitChar (k % 10)] := by
      intro k hk
      rw [natStr_eq, if_neg hk]
    by_cases hm : m < 10 <;> by_cases hn : n < 10
    · rw [hsmall m hm, hsmall n hn] at h
      exact digitChar_inj m hm n hn (by simpa using h)
    · exfalso
      rw [hsmall m hm, hbig n hn] at h
      have hp : 0 < (natStr (n / 10)).length :=
        List.length_pos.mpr (natStr_ne_nil (n / 10))
      have := congrArg List.length h
      simp [List.length_append] at this
      rw [this] at hp
      simp at hp
    · exfalso
      rw [hbig m hm, hsmall n hn] at h
      have hp : 0 < (natStr (m / 10)).length :=
        List.length_pos.mpr (natStr_ne_nil (m / 10))
      have := congrArg List.length h
      simp [List.length_append] at this
      rw [this] at hp
      simp at hp
    · rw [hbig m hm, hbig n hn] at h
      obtain ⟨h1, h2⟩ := List.append_inj' h rfl
      have e1 : m / 10 = n / 10 :=
        ih (m / 10) (Nat.div_lt_self (by omega) (by omega)) (n / 10) h1
      have e2 : m % 10 = n % 10 := by
        have hd : Nat.digitChar (m % 10) = Nat.digitChar (n % 10) := by
          simpa using h2
        exact digitChar_inj (m % 10) (Nat.mod_lt m (by omega))
          (n % 10) (Nat.mod_lt n (by omega)) hd
      omega

theorem digits_split :
    ∀ (a b r1 r2 : Str),
      (∀ c ∈ a, c.isDigit = true) → (∀ c ∈ b, c.isDigit = true) →
      a ++ underscore :: r1 = b ++ underscore :: r2 → a = b ∧ r1 = r2 := by
  intro a
  induction a with
  | nil =>
    intro b r1 r2 _ hb h
    cases b with
    | nil => simpa using h
    | cons x xs =>
      exfalso
      simp only [List.nil_append, List.cons_append] at h
      have hx : underscore = x := (List.cons.inj h).1
      have hdig : x.isDigit = true := hb x (by simp)
      rw [← hx] at hdig
      exact absurd hdig (by decide)
  | cons c cs ih =>
    intro b r1 r2 ha hb h
    cases b with
    | nil =>
      exfalso
      simp only [List.nil_append, List.cons_append] at h
      have hc : c = underscore := (List.cons.inj h).1
      have hdig : c.isDigit = true := ha c (by simp)
      rw [hc] at hdig
      exact absurd hdig (by decide)
    | cons x xs =>
      simp only [List.cons_append] at h
      obtain ⟨h1, h2⟩ := List.cons.inj h
      subst h1
      obtain ⟨e1, e2⟩ :=
        ih xs r1 r2 (fun d hd => ha d (by simp [hd])) (fun d hd => hb d (by simp [hd])) h2
      exact ⟨by rw [e1], e2⟩

/-! ### Properties of the record processor and the driver loop -/

theorem psr_outcome (c : Client) (lang : Str) (r : Record) :
    (process_single_record c lang r).2.1 = Outcome.skipped ∨
    (process_single_record c lang r).2.1 = Outcome.finished := by
  simp only [process_single_record]
  split
  · exact Or.inl rfl
  · exact Or.inr rfl

theorem psr_toBool (c : Client) (lang : Str) (r : Record) :
    (process_single_record c lang r).2.1.toBool = true := by
  simp only [process_single_record]
  split <;> rfl

theorem stepSt_processed (c : Client) (lang : Str) (interval : Nat) (ts : Nat → Str)
    (idx : Nat) (r : Record) (rest2 : List Record) (st : St) :
    (stepSt c lang interval ts idx r rest2 st).processed = st.processed + 1 := by
  simp only [stepSt]
  split <;> rfl

theorem stepSt_succeeded (c : Client) (lang : Str) (interval : Nat) (ts : Nat → Str)
    (idx : Nat) (r : Record) (rest2 : List Record) (st : St) :
    (stepSt c lang interval ts idx r rest2 st).succeeded = st.succeeded + 1 := by
  simp only [stepSt, psr_toBool]
  split <;> rfl

theorem stepSt_saves_mono (c : Client) (lang : Str) (interval : Nat) (ts : Nat → Str)
    (idx : Nat) (r : Record) (rest2 : List Record) (st : St) :
    ∃ l, (stepSt c lang interval ts idx r rest2 st).saves = st.saves ++ l := by
  simp only [stepSt]
  split
  · exact ⟨_, rfl⟩
  · exact ⟨[], by simp⟩

theorem saveOk_save_progress (lang : Str) (df : List Record) (succ : Nat)
    (fin : Bool) (t : Str) :
    saveOkB lang (save_progress lang df succ fin t) = true := by
  simp [saveOkB, save_progress]

theorem stepSt_savesOk (c : Client) (lang : Str) (interval : Nat) (ts : Nat → Str)
    (idx : Nat) (r : Record) (rest2 : List Record) (st : St)
    (h : st.saves.all (saveOkB lang) = true) :
    (stepSt c lang interval ts idx r rest2 st).saves.all (saveOkB lang) = true := by
  simp only [stepSt]
  split
  · simp [List.all_append, h, saveOk_save_progress]
  · exact h

theorem loop_counts (c : Client) (lang : Str) (interval : Nat) (ts : Nat → Str) :
    ∀ (rest : List Record) (idx : Nat) (st : St),
      (loop c lang interval none ts idx rest st).1.processed
        = st.processed + rest.length ∧
      (loop c lang interval none ts idx rest st).1.succeeded
        = st.succeeded + rest.length := by
  intro rest
  induction rest with
  | nil =>
    intro idx st
    simp [loop]
  | cons r rest2 ih =>
    intro idx st
    have hne : ¬((none : Option Nat) = some idx) := by simp
    simp only [loop, if_neg hne]
    obtain ⟨p1, s1⟩ := ih (idx + 1) (stepSt c lang interval ts idx r rest2 st)
    constructor
    · rw [p1, stepSt_processed]
      simp [List.length_cons]
      omega
    · rw [s1, stepSt_succeeded]
      simp [List.length_cons]
      omega

theorem loop_progress (c : Client) (lang : Str) (interval : Nat) (intr : Option Nat)
    (ts : Nat → Str) :
    ∀ (rest : List Record) (idx : Nat) (st : St), rest ≠ [] →
      st.processed < (loop c lang interval intr ts idx rest st).1.processed ∨
      ∃ ev ∈ (loop c lang interval intr ts idx rest st).1.saves, ev.final = true := by
  intro rest
  induction rest with
  | nil =>
    intro idx st h
    exact absurd rfl h
  | cons r rest2 ih =>
    intro idx st _
    by_cases hi : intr = some idx
    · right
      simp only [loop, if_pos hi]
      exact ⟨save_progress lang (st.done ++ r :: rest2) st.succeeded true (ts st.nsaves),
             by simp, rfl⟩
    · simp only [loop, if_neg hi]
      cases rest2 with
      | nil =>
        left
        simp only [loop]
        rw [stepSt_processed]
        omega
      | cons r2 rest3 =>
        rcases ih (idx + 1) (stepSt c lang interval ts idx r (r2 :: rest3) st)
            (by simp) with h | h
        · left
          have := stepSt_processed c lang interval ts idx r (r2 :: rest3) st
          omega
        · right
          exact h

theorem loop_savesOk (c : Client) (lang : Str) (interval : Nat) (intr : Option Nat)
    (ts : Nat → Str) :
    ∀ (rest : List Record) (idx : Nat) (st : St),
      st.saves.all (saveOkB lang) = true →
      (loop c lang interval intr ts idx rest st).1.saves.all (saveOkB lang) = true := by
  intro rest
  induction rest with
  | nil =>
    intro idx st h
    simpa [loop] using h
  | cons r rest2 ih =>
    intro idx st h
    by_cases hi : intr = some idx
    · simp only [loop, if_pos hi]
      simp [List.all_append, h, saveOk_save_progress]
    · simp only [loop, if_neg hi]
      exact ih (idx + 1) _ (stepSt_savesOk c lang interval ts idx r rest2 st h)

theorem pd_processed (c : Client) (lang : Str) (df : List Record) (interval : Nat)
    (intr : Option Nat) (ts : Nat → Str) :
    (process_dataframe c lang df interval intr ts).processed
      = (loop c lang interval intr ts 0 df initSt).1.processed := by
  simp only [process_dataframe]
  split <;> rfl

theorem pd_succeeded (c : Client) (lang : Str) (df : List Record) (interval : Nat)
    (intr : Option Nat) (ts : Nat → Str) :
    (process_dataframe c lang df interval intr ts).succeeded
      = (loop c lang interval intr ts 0 df initSt).1.succeeded := by
  simp only [process_dataframe]
  split <;> rfl

theorem pd_saves (c : Client) (lang : Str) (df : List Record) (interval : Nat)
    (intr : Option Nat) (ts : Nat → Str) :
    (process_dataframe c lang df interval intr ts).saves =
      if (loop c lang interval intr ts 0 df initSt).1.processed > 0 then
        (loop c lang interval intr ts 0 df initSt).1.saves ++
          [save_progress lang (loop c lang interval intr ts 0 df initSt).2
            (loop c lang interval intr ts 0 df initSt).1.succeeded true
            (ts (loop c lang interval intr ts 0 df initSt).1.nsaves)]
      else (loop c lang interval intr ts 0 df initSt).1.saves := by
  simp only [process_dataframe]
  split <;> rfl

theorem kindPre_head (fin : Bool) (X : Str) :
    (kindPre fin ++ X).head? = some (if fin then Char.ofNat 102 else Char.ofNat 98) := by
  cases fin <;> rfl

theorem cell_roundtrip (x : Cell) (h : cellOk x = true) :
    parseCell (Cell.save x) = x := by
  cases x with
  | nan => rfl
  | str v =>
    have hc : naValues.contains v = false := by simpa [cellOk] using h
    show parseCell v = Cell.str v
    unfold parseCell
    rw [hc]
    rfl

/-! ### The claims -/

/-- C1, counterexample: the record `rValueDone` is complete per the
spec section 3 invariant (empty `sourceFormula`, present `targetValue`),
yet `process_single_record` does not skip it: it makes one Transform
Client call and overwrites `targetValue`, changing the record. -/
theorem C1_counterexample :
    specComplete rValueDone = true ∧
    (process_single_record okClient langAfr rValueDone).2.1 ≠ Outcome.skipped ∧
    (process_single_record okClient langAfr rValueDone).2.2 ≠ [] ∧
    (process_single_record okClient langAfr rValueDone).1 ≠ rValueDone := by
  decide

/-- C1, amended: `process_single_record` returns `Skipped`, makes zero
Transform Client calls and leaves the record unchanged for every record
whose `targetValue` and `targetFormula` cells are both truthy (a
non-empty string, or the pandas `NaN`), or whose two trimmed source
texts are both empty — the code's completeness test, which requires a
truthy `targetFormula` even when `sourceFormula` is empty. -/
theorem C1_amended (c : Client) (lang : Str) (r : Record)
    (h : (r.targetValue.truthy && r.targetFormula.truthy) = true ∨
         ((pyStrip r.sourceValue.pyStr).isEmpty
           && (pyStrip r.sourceFormula.pyStr).isEmpty) = true) :
    process_single_record c lang r = (r, Outcome.skipped, []) := by
  simp only [process_single_record]
  rcases h with h | h
  · rw [h]
    simp
  · rw [h]
    simp

/-- C1, witness: the amended theorem applied to the concrete record
`rComplete`, whose two target cells are non-empty strings. -/
theorem C1_witness :
    ((rComplete.targetValue.truthy && rComplete.targetFormula.truthy) = true ∨
     ((pyStrip rComplete.sourceValue.pyStr).isEmpty
       && (pyStrip rComplete.sourceFormula.pyStr).isEmpty) = true) ∧
    process_single_record okClient langAfr rComplete
      = (rComplete, Outcome.skipped, []) :=
  ⟨Or.inl (by decide), C1_amended okClient langAfr rComplete (Or.inl (by decide))⟩

/-- C2, code bug, evaluated at the failing input: the checkpoint
`ckpt2` loads to a complete record 0 and an incomplete record 1 (its
empty target fields come back as the float `NaN`), yet the resumed run
makes zero Transform Client calls and leaves both records untouched,
because Python's `NaN` is truthy and the skip test therefore treats
record 1 as already processed. -/
theorem C2_code_bug_eval :
    load_table ckpt2 = [rComplete, rec2b] ∧
    specComplete rComplete = true ∧
    specComplete rec2b = false ∧
    runC2.calls = [] ∧
    runC2.df = [rComplete, rec2b] ∧
    runC2.outcomes = [Outcome.skipped, Outcome.skipped] := by
  decide

/-- C3, counterexample: on a record with non-empty `sourceValue` and a
failing `translateValue` call, `process_single_record` writes the
untranslated original text into `targetValue` (the cell changes) and
returns the Python `True` of the normal path, not `Failed`. -/
theorem C3_counterexample :
    (process_single_record failClient langAfr rValueFresh).1.targetValue
        = Cell.str (lit "Total") ∧
    (process_single_record failClient langAfr rValueFresh).1.targetValue
        ≠ rValueFresh.targetValue ∧
    (process_single_record failClient langAfr rValueFresh).2.1.toBool = true := by
  decide

/-- C3, amended: for every non-skipped record with non-empty trimmed
`sourceValue` whose `translateValue` call fails, the wrapper falls back
to the original text, `process_single_record` writes that original
(trimmed) into `targetValue`, and returns success (`True`). -/
theorem C3_amended (c : Client) (lang : Str) (r : Record)
    (hskip : ((r.targetValue.truthy && r.targetFormula.truthy)
        || ((pyStrip r.sourceValue.pyStr).isEmpty
            && (pyStrip r.sourceFormula.pyStr).isEmpty)) = false)
    (hv : (pyStrip r.sourceValue.pyStr).isEmpty = false)
    (hcall : c.translateValue (pyStrip r.sourceValue.pyStr) lang = Except.error ()) :
    (process_single_record c lang r).1.targetValue
        = Cell.str (pyStrip r.sourceValue.pyStr) ∧
    (process_single_record c lang r).2.1 = Outcome.finished := by
  simp only [process_single_record]
  rw [hskip]
  simp only [translate_text, pyStrip_idem, hv, hcall, Bool.or_self,
    Bool.false_eq_true, if_false]
  split <;> simp

/-- C3, witness: the amended theorem applied to the fresh record
`rValueFresh` under the always-failing client. -/
theorem C3_witness :
    ((rValueFresh.targetValue.truthy && rValueFresh.targetFormula.truthy)
        || ((pyStrip rValueFresh.sourceValue.pyStr).isEmpty
            && (pyStrip rValueFresh.sourceFormula.pyStr).isEmpty)) = false ∧
    (pyStrip rValueFresh.sourceValue.pyStr).isEmpty = false ∧
    failClient.translateValue (pyStrip rValueFresh.sourceValue.pyStr) langAfr
        = Except.error () ∧
    ((process_single_record failClient langAfr rValueFresh).1.targetValue
        = Cell.str (pyStrip rValueFresh.sourceValue.pyStr) ∧
     (process_single_record failClient langAfr rValueFresh).2.1
        = Outcome.finished) :=
  ⟨by decide, by decide, rfl,
   C3_amended failClient langAfr rValueFresh (by decide) (by decide) rfl⟩

/-- C4, counterexample: in a run over `[rComplete, rFresh]` with the
always-failing client, record 0 is `Skipped` and both of record 1's
Transform Client calls fail, yet `succeededCount` still ends at 2: a
skipped record and a record with failed calls each increment it. -/
theorem C4_counterexample :
    runC4.processed = 2 ∧
    runC4.succeeded = 2 ∧
    runC4.outcomes = [Outcome.skipped, Outcome.finished] ∧
    runC4.calls ≠ [] := by
  decide

/-- C4, amended: after an un-interrupted batch loop, `processedCount`
equals the number of records iterated, and `succeededCount` counts the
records for which `process_single_record` returned `True` — which is
every record, because skips return `True` and the wrappers swallow
Transform Client failures; hence both counters equal the table length. -/
theorem C4_amended (c : Client) (lang : Str) (df : List Record)
    (interval : Nat) (ts : Nat → Str) :
    (process_dataframe c lang df interval none ts).processed = df.length ∧
    (process_dataframe c lang df interval none ts).succeeded = df.length := by
  obtain ⟨hp, hs⟩ := loop_counts c lang interval ts df 0 initSt
  rw [pd_processed, pd_succeeded, hp, hs]
  constructor <;> simp [initSt]

/-- C5: for every formula whose trimmed text is non-empty, the string
produced by `generate_formula` — whether the rewrite call succeeds or
fails — begins with the apostrophe marker character. -/
theorem C5_theorem (c : Client) (lang ev tv f : Str) (h : pyStrip f ≠ []) :
    (generate_formula c lang ev tv f).1.head? = some marker := by
  have hwm : wsp marker = false := by decide
  have hsf : (pyStrip f).isEmpty = false := by
    cases hps : pyStrip f
    · exact absurd hps h
    · rfl
  have hf : f.isEmpty = false := by
    cases f
    · exact absurd rfl h
    · rfl
  simp only [generate_formula, hf, hsf, Bool.or_self, Bool.false_eq_true, if_false]
  cases hc : c.rewriteFormula ev tv f lang with
  | error e => rfl
  | ok out =>
    show (pyStrip (if out.head? = some marker then out else marker :: out)).head?
        = some marker
    by_cases hh : out.head? = some marker
    · rw [if_pos hh]
      cases out with
      | nil => simp at hh
      | cons a t =>
        have ha : a = marker := by simpa using hh
        subst ha
        obtain ⟨t2, h2⟩ := pyStrip_cons_of_nonws hwm t
        rw [h2]
        rfl
    · rw [if_neg hh]
      obtain ⟨t2, h2⟩ := pyStrip_cons_of_nonws hwm out
      rw [h2]
      rfl

/-- C5, witness: the theorem applied to the concrete formula `"=A"`
under the always-succeeding client. -/
theorem C5_witness :
    pyStrip (lit "=A") ≠ [] ∧
    (generate_formula okClient langAfr (lit "Total assets") (lit "Vertaal")
        (lit "=A")).1.head? = some marker :=
  ⟨by decide, C5_theorem okClient langAfr (lit "Total assets") (lit "Vertaal")
      (lit "=A") (by decide)⟩

/-- C6, counterexample: saving and loading a table containing the
record `rValueFresh` (empty-string target cells) does not reproduce the
table: the empty strings come back as the pandas missing value, and
even the cells' Python string renderings differ. -/
theorem C6_counterexample :
    load_table (save_table [rValueFresh]) ≠ [rValueFresh] ∧
    (load_table (save_table [rValueFresh])).map (fun r => r.targetValue.pyStr)
      ≠ [rValueFresh].map (fun r => r.targetValue.pyStr) := by
  decide

/-- C6, amended: the checkpoint round trip reproduces the table exactly
for every table whose cells are each either the pandas missing value or
a string outside the `read_csv` NA-sentinel set (in particular,
non-empty); empty-string cells instead come back as missing. -/
theorem C6_amended (t : List Record) (h : ∀ r ∈ t, recordOk r = true) :
    load_table (save_table t) = t := by
  induction t with
  | nil => rfl
  | cons r rest ih =>
    have hr := h r (by simp)
    simp only [recordOk, Bool.and_eq_true] at hr
    obtain ⟨⟨⟨h1, h2⟩, h3⟩, h4⟩ := hr
    have htail := ih (fun x hx => h x (by simp [hx]))
    show (⟨parseCell r.sourceValue.save, parseCell r.sourceFormula.save,
           parseCell r.targetValue.save, parseCell r.targetFormula.save⟩ : Record)
        :: load_table (save_table rest) = r :: rest
    rw [cell_roundtrip _ h1, cell_roundtrip _ h2, cell_roundtrip _ h3,
      cell_roundtrip _ h4, htail]

/-- C6, witness: the amended theorem applied to the one-record table
`[rComplete]`, all of whose cells are non-empty non-sentinel strings. -/
theorem C6_witness :
    (∀ r ∈ [rComplete], recordOk r = true) ∧
    load_table (save_table [rComplete]) = [rComplete] :=
  ⟨by decide, C6_amended [rComplete] (by decide)⟩

/-- C7, counterexample: in the run `runC7` — interrupted at record 1,
with every `strftime` call falling in the same second — two distinct
checkpoint-writer invocations (the interrupt handler's final save and
the post-loop final save) produce the identical snapshot file name. -/
theorem C7_counterexample :
    runC7.saves.length = 2 ∧
    runC7.saves.map SaveEvent.filename
      = [lit "Backup_OutputResults/final_backup_afrikaans_1_20250101_120000.csv",
         lit "Backup_OutputResults/final_backup_afrikaans_1_20250101_120000.csv"] := by
  decide

/-- C7, amended: two checkpoint file names built by `backup_filename`
within one run (fixed language) coincide only if the two invocations
agree on the save kind, the success count, and the wall-clock timestamp
string; invocations differing in any of the three get distinct names.
Uniqueness fails only when all three coincide, as in the interrupt
double final save of the counterexample. -/
theorem C7_amended (f1 f2 : Bool) (lang : Str) (s1 s2 : Nat) (t1 t2 : Str)
    (h : backup_filename f1 lang s1 t1 = backup_filename f2 lang s2 t2) :
    f1 = f2 ∧ s1 = s2 ∧ t1 = t2 := by
  unfold backup_filename at h
  have h1 : kindPre f1 ++ (lang ++ underscore ::
        (natStr s1 ++ underscore :: (t1 ++ lit ".csv")))
      = kindPre f2 ++ (lang ++ underscore ::
        (natStr s2 ++ underscore :: (t2 ++ lit ".csv"))) :=
    (List.cons.inj (List.append_cancel_left h)).2
  have hff : f1 = f2 := by
    cases f1 <;> cases f2
    · rfl
    · exfalso
      have hd := congrArg List.head? h1
      rw [kindPre_head, kindPre_head] at hd
      exact absurd hd (by decide)
    · exfalso
      have hd := congrArg List.head? h1
      rw [kindPre_head, kindPre_head] at hd
      exact absurd hd (by decide)
    · rfl
  subst hff
  have h2 : lang ++ underscore :: (natStr s1 ++ underscore :: (t1 ++ lit ".csv"))
      = lang ++ underscore :: (natStr s2 ++ underscore :: (t2 ++ lit ".csv")) :=
    List.append_cancel_left h1
  have h3 : natStr s1 ++ underscore :: (t1 ++ lit ".csv")
      = natStr s2 ++ underscore :: (t2 ++ lit ".csv") :=
    (List.cons.inj (List.append_cancel_left h2)).2
  obtain ⟨h4, h5⟩ := digits_split (natStr s1) (natStr s2) _ _
    (natStr_digits s1) (natStr_digits s2) h3
  exact ⟨rfl, natStr_inj s1 s2 h4, List.append_cancel_right h5⟩

/-- C7, witness: the amended theorem applied to two equal concrete
invocation descriptions. -/
theorem C7_witness :
    backup_filename false (lit "afrikaans") 3 (lit "20250101_120001")
        = backup_filename false (lit "afrikaans") 3 (lit "20250101_120001") ∧
    (false = false ∧ 3 = 3 ∧ lit "20250101_120001" = lit "20250101_120001") :=
  ⟨rfl, C7_amended false false (lit "afrikaans") 3 3
      (lit "20250101_120001") (lit "20250101_120001") rfl⟩

/-- C8, counterexample: a run over the empty table completes its loop
normally, yet writes no checkpoint at all — in particular no final one
— because the final save is guarded by `processed_count > 0`. -/
theorem C8_counterexample :
    (process_dataframe okClient langAfr [] 5 none tsConst).saves = [] := by
  decide

/-- C8, amended: for every run over a non-empty table — whether the
loop completes normally or a user interrupt is observed at any index —
a checkpoint write of kind final is invoked before `process_dataframe`
returns; only the empty-table run writes none. -/
theorem C8_amended (c : Client) (lang : Str) (df : List Record) (interval : Nat)
    (intr : Option Nat) (ts : Nat → Str) (h : df ≠ []) :
    ∃ ev ∈ (process_dataframe c lang df interval intr ts).saves, ev.final = true := by
  rw [pd_saves]
  by_cases hc : (loop c lang interval intr ts 0 df initSt).1.processed > 0
  · rw [if_pos hc]
    refine ⟨save_progress lang (loop c lang interval intr ts 0 df initSt).2
        (loop c lang interval intr ts 0 df initSt).1.succeeded true
        (ts (loop c lang interval intr ts 0 df initSt).1.nsaves), ?_, rfl⟩
    simp
  · rw [if_neg hc]
    rcases loop_progress c lang interval intr ts df 0 initSt h with hp | hev
    · exact absurd hp (by simpa [initSt] using hc)
    · exact hev

/-- C8, witness: the amended theorem applied to the one-record table
`[rFresh]` with no interrupt. -/
theorem C8_witness :
    (([rFresh] : List Record) ≠ []) ∧
    ∃ ev ∈ (process_dataframe okClient langAfr [rFresh] 5 none tsConst).saves,
      ev.final = true :=
  ⟨by decide, C8_amended okClient langAfr [rFresh] 5 none tsConst (by decide)⟩

/-- C9, counterexample: in the run `runC9` the periodic checkpoint is
named `backup_afrikaans_1_{ts}.csv` and the final one
`final_backup_afrikaans_1_{ts}.csv` — the kind piece is `backup`, not
`progress`, so the first file name differs from the spec's
`progress_{language}_{succ}_{timestamp}.{ext}` pattern instance. -/
theorem C9_counterexample :
    runC9.saves.map SaveEvent.filename
      = [lit "Backup_OutputResults/backup_afrikaans_1_20250101_120000.csv",
         lit "Backup_OutputResults/final_backup_afrikaans_1_20250101_120000.csv"] ∧
    (runC9.saves.map SaveEvent.filename).head?
      ≠ some (backup_dir ++ Char.ofNat 47 ::
          specCkptName false (lit "afrikaans") 1 (lit "20250101_120000") (lit "csv")) := by
  decide

/-- C9, amended: every checkpoint written by any run is named
`{backup|final_backup}_{language}_{succeededCount}_{timestamp}.csv`
inside the backup directory — `backup` for periodic saves and
`final_backup` for final saves, with the language lowercased — and the
file is written with a byte-order marker. -/
theorem C9_amended (c : Client) (lang : Str) (df : List Record) (interval : Nat)
    (intr : Option Nat) (ts : Nat → Str) :
    (process_dataframe c lang df interval intr ts).saves.all (saveOkB lang) = true := by
  rw [pd_saves]
  have h1 := loop_savesOk c lang interval intr ts df 0 initSt rfl
  by_cases hc : (loop c lang interval intr ts 0 df initSt).1.processed > 0
  · rw [if_pos hc]
    simp [List.all_append, h1, saveOk_save_progress]
  · rw [if_neg hc]
    exact h1

/-- C10: on an input that is empty or all whitespace, `translate_text`
returns the empty string with no Transform Client call, and so does
`generate_formula` for an empty or all-whitespace formula. -/
theorem C10_theorem (c : Client) (lang ev tv s : Str)
    (h : ∀ ch ∈ s, wsp ch = true) :
    translate_text c lang s = ([], []) ∧
    generate_formula c lang ev tv s = ([], []) := by
  have hs : pyStrip s = [] := pyStrip_eq_nil_of_all_ws h
  constructor
  · simp only [translate_text, hs]
    simp
  · simp only [generate_formula, hs]
    simp

/-- C10, witness: the theorem applied to the one-space string. -/
theorem C10_witness :
    (∀ ch ∈ [Char.ofNat 32], wsp ch = true) ∧
    (translate_text okClient langAfr [Char.ofNat 32] = ([], []) ∧
     generate_formula okClient langAfr (lit "Total") (lit "Vertaal") [Char.ofNat 32]
       = ([], [])) :=
  ⟨by decide, C10_theorem okClient langAfr (lit "Total") (lit "Vertaal")
      [Char.ofNat 32] (by decide)⟩

end Draftworx
